import Mathlib

/-!
Verification of the liberation-book-scraper repository.

Strings are modelled as lists of Unicode code points (`List Nat`); the
character-class functions below model the ASCII fragment of the Python
string methods used by the source (`lower`, `strip`, `split`, `isalnum`,
`re`'s `\w`/`\s`), which is the fragment exercised by author names, URLs
and format signatures in the code.
-/

/-- Convert a Lean string literal to its list of code points. -/
def str2l (s : String) : List Nat := s.data.map Char.toNat

/-- ASCII whitespace, the characters matched by Python's `\s` / `str.strip` /
`str.split()` in the ASCII range: space, tab, LF, VT, FF, CR. -/
def isSpaceCh (c : Nat) : Bool :=
  c = 32 ∨ c = 9 ∨ c = 10 ∨ c = 11 ∨ c = 12 ∨ c = 13

/-- ASCII word character (`\w`): letters, digits, underscore. -/
def isWordCh (c : Nat) : Bool :=
  (48 ≤ c ∧ c ≤ 57) ∨ (65 ≤ c ∧ c ≤ 90) ∨ (97 ≤ c ∧ c ≤ 122) ∨ c = 95

/-- ASCII alphanumeric (`str.isalnum` on ASCII input). -/
def isAlnumCh (c : Nat) : Bool :=
  (48 ≤ c ∧ c ≤ 57) ∨ (65 ≤ c ∧ c ≤ 90) ∨ (97 ≤ c ∧ c ≤ 122)

/-- ASCII lower-casing of one code point (`str.lower`). -/
def toLowerCh (c : Nat) : Nat := if 65 ≤ c ∧ c ≤ 90 then c + 32 else c

/-- ASCII upper-casing of one code point (`str.upper` on one character). -/
def toUpperCh (c : Nat) : Nat := if 97 ≤ c ∧ c ≤ 122 then c - 32 else c

/-- `str.lower` over a whole string. -/
def pyLower (s : List Nat) : List Nat := s.map toLowerCh

/-- `str.strip()`: remove leading and trailing whitespace. -/
def pyStrip (s : List Nat) : List Nat :=
  ((s.dropWhile isSpaceCh).reverse.dropWhile isSpaceCh).reverse

/-- Accumulator worker for `splitWs`; `acc` holds the current word reversed. -/
def splitWsAux : List Nat → List Nat → List (List Nat)
  | [], acc => if acc.isEmpty then [] else [acc.reverse]
  | c :: rest, acc =>
    if isSpaceCh c then
      if acc.isEmpty then splitWsAux rest []
      else acc.reverse :: splitWsAux rest []
    else splitWsAux rest (c :: acc)

/-- Python `str.split()` with no argument: split on whitespace runs,
discarding empty pieces. -/
def splitWs (s : List Nat) : List (List Nat) := splitWsAux s []

/-- Join words with single spaces (`" ".join(words)`). -/
def joinWords : List (List Nat) → List Nat
  | [] => []
  | [w] => w
  | w :: w' :: ws => w ++ 32 :: joinWords (w' :: ws)

/-- `" ".join(s.split())`: collapse internal whitespace, trim the ends. -/
def collapseWs (s : List Nat) : List Nat := joinWords (splitWs s)

/-- Title-case one word: upper-case its first character, lower-case the rest
(the per-word action of Python's `str.title`). -/
def capitalizeWord : List Nat → List Nat
  | [] => []
  | c :: cs => toUpperCh c :: cs.map toLowerCh

/-- Modelled from the spec: `normalize_author_name` is imported from
`book_scraper` by `test_author_normalization.py` and `batch_operations.py`,
but its definition is not among the files under `src/`.  The spec (§4.1, §8)
states the author name is trimmed, collapsed to single spaces, and
title-cased (`"  mark   twain  "` → `"Mark Twain"`). -/
def normalize_author_name (s : List Nat) : List Nat :=
  joinWords ((splitWs s).map capitalizeWord)

theorem toUpperCh_toUpperCh (c : Nat) : toUpperCh (toUpperCh c) = toUpperCh c := by
  simp only [toUpperCh]
  split_ifs <;> omega

theorem toLowerCh_toLowerCh (c : Nat) : toLowerCh (toLowerCh c) = toLowerCh c := by
  simp only [toLowerCh]
  split_ifs <;> omega

theorem isSpaceCh_toUpperCh (c : Nat) (h : isSpaceCh c = false) :
    isSpaceCh (toUpperCh c) = false := by
  simp only [isSpaceCh, toUpperCh, decide_eq_false_iff_not] at *
  split_ifs with h' <;> omega

theorem isSpaceCh_toLowerCh (c : Nat) (h : isSpaceCh c = false) :
    isSpaceCh (toLowerCh c) = false := by
  simp only [isSpaceCh, toLowerCh, decide_eq_false_iff_not] at *
  split_ifs with h' <;> omega

/-- Every word produced by `splitWsAux` is non-empty and whitespace-free,
provided the accumulator is whitespace-free. -/
theorem splitWsAux_sound (s : List Nat) :
    ∀ acc, (∀ c ∈ acc, isSpaceCh c = false) →
      ∀ w ∈ splitWsAux s acc, w ≠ [] ∧ ∀ c ∈ w, isSpaceCh c = false := by
  induction s with
  | nil =>
    intro acc hacc w hw
    simp only [splitWsAux] at hw
    split at hw
    · simp at hw
    · next hne =>
      simp only [List.mem_singleton] at hw
      subst hw
      refine ⟨?_, ?_⟩
      · simp only [ne_eq, List.reverse_eq_nil_iff]
        simpa [List.isEmpty_iff] using hne
      · intro c hc
        exact hacc c (List.mem_reverse.mp hc)
  | cons c rest ih =>
    intro acc hacc w hw
    simp only [splitWsAux] at hw
    split at hw
    · next hsp =>
      split at hw
      · exact ih [] (by simp) w hw
      · rcases List.mem_cons.mp hw with h | h
        · subst h
          refine ⟨?_, ?_⟩
          · next hne =>
            simp only [ne_eq, List.reverse_eq_nil_iff]
            simpa [List.isEmpty_iff] using hne
          · intro x hx
            exact hacc x (List.mem_reverse.mp hx)
        · exact ih [] (by simp) w h
    · next hsp =>
      refine ih (c :: acc) ?_ w hw
      intro x hx
      rcases List.mem_cons.mp hx with h | h
      · subst h
        exact Bool.eq_false_iff.mpr hsp
      · exact hacc x h

/-- Running `splitWsAux` over a whitespace-free word followed by a tail
just moves the word into the accumulator. -/
theorem splitWsAux_append (w : List Nat) :
    ∀ t acc, (∀ c ∈ w, isSpaceCh c = false) →
      splitWsAux (w ++ t) acc = splitWsAux t (w.reverse ++ acc) := by
  induction w with
  | nil => intro t acc _; simp
  | cons c w' ih =>
    intro t acc hw
    have hc : isSpaceCh c = false := hw c (List.mem_cons_self _ _)
    simp only [List.cons_append, splitWsAux, hc, Bool.false_eq_true, if_false,
      List.append_eq]
    rw [ih t (c :: acc) (fun x hx => hw x (List.mem_cons_of_mem _ hx))]
    simp

/-- Splitting the single-space join of non-empty whitespace-free words
recovers the words. -/
theorem splitWs_joinWords (ws : List (List Nat))
    (h : ∀ w ∈ ws, w ≠ [] ∧ ∀ c ∈ w, isSpaceCh c = false) :
    splitWs (joinWords ws) = ws := by
  induction ws with
  | nil => simp [splitWs, joinWords, splitWsAux]
  | cons w ws' ih =>
    obtain ⟨hne, hnospace⟩ := h w (List.mem_cons_self _ _)
    cases ws' with
    | nil =>
      show splitWsAux (joinWords [w]) [] = [w]
      simp only [joinWords]
      rw [show w = w ++ ([] : List Nat) by simp, splitWsAux_append w [] [] hnospace]
      simp only [splitWsAux, List.append_nil]
      rw [if_neg (by simpa [List.isEmpty_iff, List.reverse_eq_nil_iff] using hne)]
      simp
    | cons w2 ws'' =>
      show splitWsAux (joinWords (w :: w2 :: ws'')) [] = w :: w2 :: ws''
      simp only [joinWords]
      rw [splitWsAux_append w (32 :: joinWords (w2 :: ws'')) [] hnospace]
      simp only [splitWsAux, List.append_nil]
      rw [if_pos (by simp [isSpaceCh])]
      rw [if_neg (by simpa [List.isEmpty_iff, List.reverse_eq_nil_iff] using hne)]
      have := ih (fun x hx => h x (List.mem_cons_of_mem _ hx))
      simp only [splitWs, joinWords] at this
      simp [this]

theorem capitalizeWord_ne_nil (w : List Nat) (h : w ≠ []) : capitalizeWord w ≠ [] := by
  cases w with
  | nil => exact absurd rfl h
  | cons c cs => simp [capitalizeWord]

theorem capitalizeWord_no_space (w : List Nat) (h : ∀ c ∈ w, isSpaceCh c = false) :
    ∀ c ∈ capitalizeWord w, isSpaceCh c = false := by
  cases w with
  | nil => simp [capitalizeWord]
  | cons c cs =>
    intro x hx
    simp only [capitalizeWord, List.mem_cons, List.mem_map] at hx
    rcases hx with h1 | ⟨y, hy, h2⟩
    · subst h1
      exact isSpaceCh_toUpperCh c (h c (List.mem_cons_self _ _))
    · subst h2
      exact isSpaceCh_toLowerCh y (h y (List.mem_cons_of_mem _ hy))

theorem capitalizeWord_idem (w : List Nat) :
    capitalizeWord (capitalizeWord w) = capitalizeWord w := by
  cases w with
  | nil => rfl
  | cons c cs =>
    simp only [capitalizeWord, List.map_map, toUpperCh_toUpperCh]
    congr 1
    exact List.map_congr_left (fun x _ => toLowerCh_toLowerCh x)

/-- Claim C6: author-name normalization is idempotent, and it trims,
collapses internal whitespace, and title-cases, so that
`normalize("  mark   twain  ") = "Mark Twain"` and
`normalize("CHARLES DICKENS") = "Charles Dickens"`. -/
theorem normalize_author_name_idempotent :
    (∀ s : List Nat,
        normalize_author_name (normalize_author_name s) = normalize_author_name s) ∧
    normalize_author_name (str2l "  mark   twain  ") = str2l "Mark Twain" ∧
    normalize_author_name (str2l "CHARLES DICKENS") = str2l "Charles Dickens" := by
  refine ⟨?_, by decide, by decide⟩
  intro s
  have hws : ∀ w ∈ (splitWs s).map capitalizeWord,
      w ≠ [] ∧ ∀ c ∈ w, isSpaceCh c = false := by
    intro w hw
    obtain ⟨v, hv, hvw⟩ := List.mem_map.mp hw
    obtain ⟨hvne, hvns⟩ := splitWsAux_sound s [] (by simp) v hv
    subst hvw
    exact ⟨capitalizeWord_ne_nil v hvne, capitalizeWord_no_space v hvns⟩
  show joinWords ((splitWs (joinWords ((splitWs s).map capitalizeWord))).map capitalizeWord)
      = joinWords ((splitWs s).map capitalizeWord)
  rw [splitWs_joinWords _ hws, List.map_map]
  congr 1
  exact List.map_congr_left (fun w _ => capitalizeWord_idem w)

/-- `pattern.startsWithL target`: is `pattern` a prefix of `target`
(Python `str.startswith`)? -/
def startsWithL : List Nat → List Nat → Bool
  | [], _ => true
  | _ :: _, [] => false
  | p :: ps, c :: cs => p == c && startsWithL ps cs

/-- Python's substring test `needle in hay`. -/
def containsSub (needle : List Nat) : List Nat → Bool
  | [] => needle.isEmpty
  | c :: cs => startsWithL needle (c :: cs) || containsSub needle cs

/-- `s.replace(".", "")`. -/
def stripDots (s : List Nat) : List Nat := s.filter (fun c => c ≠ 46)

/-- The honorific-prefix list of `OpenLibraryScraper._fuzzy_author_match`. -/
def fmPrefixes : List (List Nat) :=
  [str2l "dr ", str2l "dr. ", str2l "mr ", str2l "mr. ", str2l "mrs ",
   str2l "mrs. ", str2l "ms ", str2l "ms. ", str2l "prof ", str2l "prof. "]

/-- The generational-suffix list of `OpenLibraryScraper._fuzzy_author_match`. -/
def fmSuffixes : List (List Nat) :=
  [str2l " jr", str2l " jr.", str2l " sr", str2l " sr.", str2l " ii",
   str2l " iii", str2l " iv"]

/-- `re.sub(r"[^\w\s]", " ", name)`: replace punctuation by spaces. -/
def subPunct (s : List Nat) : List Nat :=
  s.map (fun c => if isWordCh c || isSpaceCh c then c else 32)

/-- The inner `normalize` of `OpenLibraryScraper._fuzzy_author_match`:
lower-case, strip, replace punctuation with spaces, collapse whitespace,
then iteratively strip honorific prefixes and generational suffixes. -/
def fuzzy_normalize (name : List Nat) : List Nat :=
  let n0 := pyStrip (pyLower name)
  let n1 := collapseWs (subPunct n0)
  let n2 := fmPrefixes.foldl
    (fun nm p =>
      let pc := stripDots (pyStrip p)
      if startsWithL (pc ++ [32]) nm then pyStrip (nm.drop pc.length) else nm)
    n1
  let n3 := fmSuffixes.foldl
    (fun nm s =>
      let sc := stripDots (pyStrip s)
      if startsWithL ((32 :: sc).reverse) nm.reverse then
        pyStrip (nm.take (nm.length - sc.length))
      else nm)
    n2
  pyStrip n3

/-- The fixed filler-word set of `_fuzzy_author_match` (single letters plus
common name particles). -/
def commonFillers : List (List Nat) :=
  [str2l "a", str2l "b", str2l "c", str2l "d", str2l "e", str2l "f",
   str2l "g", str2l "h", str2l "i", str2l "j", str2l "k", str2l "l",
   str2l "m", str2l "n", str2l "o", str2l "p", str2l "q", str2l "r",
   str2l "s", str2l "t", str2l "u", str2l "v", str2l "w", str2l "x",
   str2l "y", str2l "z", str2l "de", str2l "van", str2l "von",
   str2l "del", str2l "la", str2l "le"]

/-- The significant-word set of a normalized name: the distinct words of
length > 1 that are not filler words. -/
def sigWords (n : List Nat) : List (List Nat) :=
  (splitWs n).dedup.filter (fun w => w.length > 1 ∧ w ∉ commonFillers)

/-- Size of the intersection of two word sets (both lists are deduplicated). -/
def countCommon (a b : List (List Nat)) : Nat :=
  (a.filter (fun w => w ∈ b)).length

/-- `OpenLibraryScraper._fuzzy_author_match`: exact match after
normalization, else compare significant-word sets. -/
def _fuzzy_author_match (searched found : List Nat) : Bool :=
  let sn := fuzzy_normalize searched
  let fn := fuzzy_normalize found
  if sn = fn then true
  else
    let sw := sigWords sn
    let fw := sigWords fn
    if sw = [] ∨ fw = [] then false
    else decide (countCommon sw fw ≥ min 2 sw.length)

/-- The acceptance criterion exactly as the claim words it: the
significant-word sets intersect in at least `min(2, |searched set|)` words.
Stated separately from the source function so the two can be compared. -/
def fuzzyClaimCriterion (searched found : List Nat) : Bool :=
  let sw := sigWords (fuzzy_normalize searched)
  let fw := sigWords (fuzzy_normalize found)
  decide (countCommon sw fw ≥ min 2 sw.length)

/-- Claim C7 counterexample: for searched "van" and found "von" both
significant-word sets are empty, so the claim's criterion
`|intersection| ≥ min(2, |searched set|) = 0` holds trivially, yet the
source function returns False (its empty-set guard fires and the
normalized names differ). -/
theorem fuzzy_match_claim_counterexample :
    _fuzzy_author_match (str2l "van") (str2l "von") = false ∧
    fuzzyClaimCriterion (str2l "van") (str2l "von") = true := by
  exact ⟨by decide, by decide⟩

/-- Claim C7 (amended): the fuzzy author match accepts exactly when either
the two names are equal after normalization, or both significant-word sets
are non-empty and they intersect in at least `min(2, |searched set|)` words;
`match("mark twain", "Dr. Mark Twain")` and
`match("mark twain", "Mark Twain Jr")` succeed while
`match("mark twain", "John Smith")` fails. -/
theorem fuzzy_author_match_amended :
    (∀ s f : List Nat, _fuzzy_author_match s f = true ↔
       (fuzzy_normalize s = fuzzy_normalize f ∨
        (sigWords (fuzzy_normalize s) ≠ [] ∧ sigWords (fuzzy_normalize f) ≠ [] ∧
         countCommon (sigWords (fuzzy_normalize s)) (sigWords (fuzzy_normalize f)) ≥
           min 2 (sigWords (fuzzy_normalize s)).length))) ∧
    _fuzzy_author_match (str2l "mark twain") (str2l "Dr. Mark Twain") = true ∧
    _fuzzy_author_match (str2l "mark twain") (str2l "Mark Twain Jr") = true ∧
    _fuzzy_author_match (str2l "mark twain") (str2l "John Smith") = false := by
  refine ⟨?_, by decide, by decide, by decide⟩
  intro s f
  simp only [_fuzzy_author_match]
  split_ifs with h1 h2
  · simp [h1]
  · simp only [Bool.false_eq_true, false_iff]
    intro hor
    rcases hor with h | ⟨hs, hf, _⟩
    · exact h1 h
    · rcases h2 with h | h
      · exact hs h
      · exact hf h
  · push_neg at h2
    simp only [decide_eq_true_eq]
    constructor
    · intro hge
      exact Or.inr ⟨h2.1, h2.2, hge⟩
    · intro hor
      rcases hor with h | ⟨_, _, hge⟩
      · exact absurd h h1
      · exact hge

/-!
## The downloader (`BookDownloader.download_book`, src/book_scraper.py)

The network is a function from URL to `Option Response` (`none` models a
fetch that raises, i.e. timeout or connection error).  The file system is
modelled by the state of the one author directory the call touches: whether
it exists and the (name, bytes) files inside it.
-/

def sDoctype : List Nat := str2l "<!DOCTYPE"
def sHtmlLow : List Nat := str2l "<html"
def sHtmlUp : List Nat := str2l "<HTML"
def sPK : List Nat := [80, 75, 3, 4]
def sPdfMagic : List Nat := str2l "%PDF-"
def sBOOKMOBI : List Nat := str2l "BOOKMOBI"
def sTEXtREAd : List Nat := str2l "TEXtREAd"
def sEpub : List Nat := str2l "epub"
def sPdf : List Nat := str2l "pdf"
def sMobi : List Nat := str2l "mobi"
def sDotEpub : List Nat := str2l ".epub"
def sDotPdf : List Nat := str2l ".pdf"
def sDotMobi : List Nat := str2l ".mobi"
def sTextHtml : List Nat := str2l "text/html"

/-- One HTTP response: status code, `content-type` header, body bytes. -/
structure Response where
  status : Nat
  contentType : List Nat
  body : List Nat
deriving DecidableEq

/-- The fields of the `Book` dataclass used by `download_book`. -/
structure Book where
  id : List Nat
  title : List Nat
  author : List Nat
  download_urls : List (List Nat)
deriving DecidableEq

/-- State of the author directory: existence flag and contained files. -/
structure FS where
  dirExists : Bool
  files : List (List Nat × List Nat)
deriving DecidableEq

/-- `author_dir.mkdir(exist_ok=True, parents=True)`. -/
def mkdirA (fs : FS) : FS := { fs with dirExists := true }

/-- `open(filepath, "wb")` followed by writing `b`: create or truncate. -/
def writeF (fs : FS) (n b : List Nat) : FS :=
  { fs with files := (n, b) :: fs.files.filter (fun e => e.1 ≠ n) }

/-- `filepath.unlink()`. -/
def unlinkF (fs : FS) (n : List Nat) : FS :=
  { fs with files := fs.files.filter (fun e => e.1 ≠ n) }

/-- `if author_dir.exists() and not any(author_dir.iterdir()): author_dir.rmdir()`. -/
def rmdirIfEmpty (fs : FS) : FS :=
  if fs.dirExists && fs.files.isEmpty then { fs with dirExists := false } else fs

/-- Look a file up by name. -/
def lookupF (files : List (List Nat × List Nat)) (n : List Nat) : Option (List Nat) :=
  (files.find? (fun e => e.1 = n)).map Prod.snd

/-- `"".join(c for c in s if c.isalnum() or c in (" ", "-", "_"))`. -/
def sanitizeChars (s : List Nat) : List Nat :=
  s.filter (fun c => isAlnumCh c || c = 32 || c = 45 || c = 95)

/-- `s.replace(" ", "_")`. -/
def underscoreSpaces (s : List Nat) : List Nat :=
  s.map (fun c => if c = 32 then 95 else c)

/-- The author-sanitization pipeline `sanitize(..).strip().replace(" ", "_")[:50]`. -/
def mkSafeAuthor (s : List Nat) : List Nat :=
  (underscoreSpaces (pyStrip (sanitizeChars s))).take 50

/-- `s.split(sep)[0]` for a non-empty separator: the part before the first
occurrence of `sep`, or all of `s` if `sep` does not occur. -/
def takeBefore (sep : List Nat) : List Nat → List Nat
  | [] => []
  | c :: rest =>
    if startsWithL sep (c :: rest) then [] else c :: takeBefore sep rest

/-- The `safe_author` computation of `download_book`: anthology splitting on
the first of `","`, `";"`, `" and "`, `" & "`, `"/"` that occurs, a
"Various_Authors" fallback for long or empty first authors, sanitization,
and an "Unknown_Author" fallback for an empty result. -/
def computeSafeAuthor (author : List Nat) : List Nat :=
  let an := pyStrip author
  let sa :=
    if containsSub (str2l ",") an || containsSub (str2l ";") an ||
        containsSub (str2l "/") an || containsSub (str2l " and ") an ||
        containsSub (str2l " & ") an then
      let fa :=
        if containsSub (str2l ",") an then pyStrip (takeBefore (str2l ",") an)
        else if containsSub (str2l ";") an then pyStrip (takeBefore (str2l ";") an)
        else if containsSub (str2l " and ") an then pyStrip (takeBefore (str2l " and ") an)
        else if containsSub (str2l " & ") an then pyStrip (takeBefore (str2l " & ") an)
        else if containsSub (str2l "/") an then pyStrip (takeBefore (str2l "/") an)
        else an
      if fa.length > 50 || fa.isEmpty then str2l "Various_Authors"
      else mkSafeAuthor fa
    else mkSafeAuthor an
  if sa.isEmpty then str2l "Unknown_Author" else sa

/-- The `safe_title` computation: sanitize, strip, cap at 100 characters,
fall back to `f"Book_{book.id}"[:100]` when empty. -/
def computeSafeTitle (title bid : List Nat) : List Nat :=
  let st := (pyStrip (sanitizeChars title)).take 100
  if st.isEmpty then (str2l "Book_" ++ bid).take 100 else st

/-- File-extension inference from the URL and the `content-type` header. -/
def extOf (u ct : List Nat) : List Nat :=
  if containsSub sDotEpub u then sEpub
  else if containsSub sDotPdf u then sPdf
  else if containsSub sDotMobi u then sMobi
  else if containsSub sEpub ct then sEpub
  else if containsSub sPdf ct then sPdf
  else sEpub

/-- The filename computation with its length fallbacks: the 200-character
filename cap with progressive title truncation, and the 4096-character
full-path cap falling back to `f"{book.id}.{ext}"`. -/
def mkFilename (od sa st ext bid : List Nat) : List Nat :=
  let fn := sa ++ str2l " - " ++ st ++ 46 :: ext
  let fn2 :=
    if fn.length > 200 then
      let avail := 200 - sa.length - ext.length - 5
      if avail > 20 then sa ++ str2l " - " ++ st.take avail ++ 46 :: ext
      else sa.take 50 ++ str2l " - " ++ bid ++ 46 :: ext
    else fn
  if od.length + 1 + sa.length + 1 + fn2.length > 4096 then bid ++ 46 :: ext
  else fn2

/-- The full path string `str(author_dir / filename)`. -/
def pathOf (od sa f : List Nat) : List Nat := od ++ 47 :: sa ++ 47 :: f

/-- `BookDownloader._validate_file_format`: reject HTML signatures in the
first kilobyte, then check the magic bytes the expected extension requires;
unknown extensions are accepted unconditionally. -/
def _validate_file_format (body ext : List Nat) : Bool :=
  let header := body.take 1024
  if startsWithL sDoctype header || startsWithL sHtmlLow header ||
      containsSub sHtmlUp (header.take 100) then false
  else if ext = sEpub then startsWithL sPK header
  else if ext = sPdf then startsWithL sPdfMagic header
  else if ext = sMobi then
    ((header.drop 60).take 8 = sBOOKMOBI || (header.drop 60).take 8 = sTEXtREAd)
  else true

/-- What one `session.get(url, timeout=60, stream=True)` plus the streaming
of its body can do.  `raised`: the `get` call itself raises (timeout,
connection error).  `full r`: the response `r` arrives and its body streams
to completion.  `bodyRaises r pb`: the response headers of `r` arrive, but
`response.iter_content` raises after the byte prefix `pb` has already been
written to the open file — the exception fires mid-stream, inside the
per-URL `try`. -/
inductive Fetch where
  | raised : Fetch
  | full : Response → Fetch
  | bodyRaises : Response → List Nat → Fetch
deriving DecidableEq

/-- Classified result of one candidate-URL attempt, mirroring the branches
of the per-URL body of `download_book` in source order.  `writeAborted`
is the except path taken when `iter_content` raises after a partial write:
the source's `except` branch just logs and `continue`s, with no unlink. -/
inductive AttemptResult where
  | fetchError : AttemptResult
  | badStatus : Nat → AttemptResult
  | htmlPage : AttemptResult
  | tooSmall : List Nat → List Nat → AttemptResult
  | badFormat : List Nat → List Nat → AttemptResult
  | writeAborted : List Nat → List Nat → AttemptResult
  | success : List Nat → List Nat → AttemptResult
deriving DecidableEq

/-- Classify one candidate-URL attempt.  Follows the source's order:
fetch (an exception at `get` is `fetchError`), the 403/404/401/non-200
status checks, the HTML content-type gate (`"text/html" in content_type and
"epub" not in url.lower()`), then the streaming write — which can be
interrupted by a mid-body exception (`writeAborted`) since the body is only
read inside `iter_content` — the 1000-byte size floor on the written file,
and magic-byte validation.  With `stream=True` a bad status or the HTML
gate `continue`s before the body is ever read, so a fetch whose body would
raise behaves like a completed one on those branches.  The classification
depends only on the fetch, the URL and the book's metadata, never on the
file system. -/
def classifyAttempt (net : List Nat → Fetch) (od bid sa st u : List Nat) :
    AttemptResult :=
  match net u with
  | .raised => .fetchError
  | .full r =>
    if r.status ≠ 200 then .badStatus r.status
    else if containsSub sTextHtml r.contentType &&
        !containsSub sEpub (pyLower u) then .htmlPage
    else
      let ext := extOf u r.contentType
      let fname := mkFilename od sa st ext bid
      if r.body.length < 1000 then .tooSmall fname r.body
      else if !_validate_file_format r.body ext then .badFormat fname r.body
      else .success fname r.body
  | .bodyRaises r pb =>
    if r.status ≠ 200 then .badStatus r.status
    else if containsSub sTextHtml r.contentType &&
        !containsSub sEpub (pyLower u) then .htmlPage
    else .writeAborted (mkFilename od sa st (extOf u r.contentType) bid) pb

/-- The file-system effect of one classified attempt: nothing for a failed
fetch or bad status; directory creation for every 200 response; write,
delete and empty-directory cleanup for an undersized or invalid file; a
partial write that is never unlinked when the body raises mid-stream (the
source's except branch has no cleanup); write for a success. -/
def attemptFS (res : AttemptResult) (fs : FS) : FS :=
  match res with
  | .fetchError => fs
  | .badStatus _ => fs
  | .htmlPage => mkdirA fs
  | .tooSmall f b => rmdirIfEmpty (unlinkF (writeF (mkdirA fs) f b) f)
  | .badFormat f b => rmdirIfEmpty (unlinkF (writeF (mkdirA fs) f b) f)
  | .writeAborted f pb => writeF (mkdirA fs) f pb
  | .success f b => writeF (mkdirA fs) f b

/-- Observable outcome of `download_book`: the returned path (`None` on
failure), the (filename, bytes) stored on success, the final file-system
state, the URLs fetched in order, and which of the two terminal warnings
(`"No download URLs..."` vs `"All URLs failed..."`) was logged. -/
structure DownloadResult where
  result : Option (List Nat)
  stored : Option (List Nat × List Nat)
  fs : FS
  fetched : List (List Nat)
  warnedNoUrls : Bool
  warnedAllFailed : Bool
deriving DecidableEq

/-- The candidate-URL loop of `download_book`: try each URL in order,
return on the first success, and on exhaustion remove the author directory
if it is empty. -/
def downloadLoop (net : List Nat → Fetch) (od bid sa st : List Nat) :
    List (List Nat) → FS → DownloadResult
  | [], fs =>
    { result := none, stored := none, fs := rmdirIfEmpty fs, fetched := [],
      warnedNoUrls := false, warnedAllFailed := true }
  | u :: rest, fs =>
    match classifyAttempt net od bid sa st u with
    | .success f b =>
      { result := some (pathOf od sa f), stored := some (f, b),
        fs := writeF (mkdirA fs) f b, fetched := [u],
        warnedNoUrls := false, warnedAllFailed := false }
    | res =>
      let r := downloadLoop net od bid sa st rest (attemptFS res fs)
      { r with fetched := u :: r.fetched }

/-- `BookDownloader.download_book`: short-circuit on an empty candidate
list, otherwise compute the safe author and title and run the URL loop. -/
def download_book (net : List Nat → Fetch) (od : List Nat)
    (book : Book) (fs : FS) : DownloadResult :=
  if book.download_urls.isEmpty then
    { result := none, stored := none, fs := fs, fetched := [],
      warnedNoUrls := true, warnedAllFailed := false }
  else
    downloadLoop net od book.id (computeSafeAuthor book.author)
      (computeSafeTitle book.title book.id) book.download_urls fs

/-- Does the attempt on `u` pass all of the status, size and
format-signature checks for this book? -/
def attemptOk (net : List Nat → Fetch) (od : List Nat)
    (book : Book) (u : List Nat) : Bool :=
  match classifyAttempt net od book.id (computeSafeAuthor book.author)
      (computeSafeTitle book.title book.id) u with
  | .success _ _ => true
  | _ => false

/-- Modelled from the spec: a content digest of the stored bytes.  The
hash-computing downloader (`BookDownloader.calculate_hash`, called by
`batch_operations.py`) is not among the files under `src/`; the spec only
requires a digest that is a function of the stored file's bytes. -/
def digest (b : List Nat) : Nat :=
  b.foldl (fun h c => (h * 31 + c) % 1099511627776) 5381

/-- Modelled from the spec: the `DownloadOutcome` record (§3) with
`filePath`, `contentHash` computed only on success, and `failureReason`. -/
structure DownloadOutcome where
  filePath : Option (List Nat)
  contentHash : Option Nat
  failureReason : Option (List Nat)
deriving DecidableEq

/-- Modelled from the spec: build the `DownloadOutcome` of one
`download_book` call.  On success the content hash is the digest of the
bytes of the stored file as found in the final file-system state; on
failure or skip no hash is computed and a failure class is reported. -/
def downloadOutcome (net : List Nat → Fetch) (od : List Nat)
    (book : Book) (fs : FS) : DownloadOutcome :=
  let r := download_book net od book fs
  match r.result, r.stored with
  | some p, some fb =>
    { filePath := some p,
      contentHash := (lookupF r.fs.files fb.1).map digest,
      failureReason := none }
  | _, _ =>
    { filePath := none, contentHash := none,
      failureReason := some (if book.download_urls.isEmpty then
        str2l "SkippedNoCandidates" else str2l "CandidateExhausted") }

/-- Did the attempt succeed? -/
def isSuccess : AttemptResult → Bool
  | .success _ _ => true
  | _ => false

theorem isSuccess_iff (res : AttemptResult) :
    isSuccess res = true ↔ ∃ f b, res = .success f b := by
  cases res <;> simp [isSuccess]

theorem attemptOk_eq_isSuccess (net : List Nat → Fetch)
    (od : List Nat) (book : Book) (u : List Nat) :
    attemptOk net od book u =
      isSuccess (classifyAttempt net od book.id (computeSafeAuthor book.author)
        (computeSafeTitle book.title book.id) u) := by
  cases h : classifyAttempt net od book.id (computeSafeAuthor book.author)
      (computeSafeTitle book.title book.id) u <;>
    simp [attemptOk, isSuccess, h]

theorem downloadLoop_cons_success (net : List Nat → Fetch)
    (od bid sa st u : List Nat) (rest : List (List Nat)) (fs : FS)
    (f b : List Nat)
    (hc : classifyAttempt net od bid sa st u = .success f b) :
    downloadLoop net od bid sa st (u :: rest) fs =
      { result := some (pathOf od sa f), stored := some (f, b),
        fs := writeF (mkdirA fs) f b, fetched := [u],
        warnedNoUrls := false, warnedAllFailed := false } := by
  simp [downloadLoop, hc]

theorem downloadLoop_cons_fail (net : List Nat → Fetch)
    (od bid sa st u : List Nat) (rest : List (List Nat)) (fs : FS)
    (h : isSuccess (classifyAttempt net od bid sa st u) = false) :
    downloadLoop net od bid sa st (u :: rest) fs =
      { downloadLoop net od bid sa st rest
          (attemptFS (classifyAttempt net od bid sa st u) fs) with
        fetched := u :: (downloadLoop net od bid sa st rest
          (attemptFS (classifyAttempt net od bid sa st u) fs)).fetched } := by
  cases hc : classifyAttempt net od bid sa st u <;>
    simp_all [downloadLoop, isSuccess]

theorem downloadLoop_first_ok (net : List Nat → Fetch)
    (od bid sa st g : List Nat) (rest : List (List Nat)) :
    ∀ (us : List (List Nat)) (fs : FS),
      (∀ u ∈ us, isSuccess (classifyAttempt net od bid sa st u) = false) →
      isSuccess (classifyAttempt net od bid sa st g) = true →
      (downloadLoop net od bid sa st (us ++ g :: rest) fs).fetched = us ++ [g] ∧
      (downloadLoop net od bid sa st (us ++ g :: rest) fs).result.isSome = true := by
  intro us
  induction us with
  | nil =>
    intro fs _ hg
    obtain ⟨f, b, hc⟩ := (isSuccess_iff _).mp hg
    rw [List.nil_append, downloadLoop_cons_success net od bid sa st g rest fs f b hc]
    simp
  | cons u us' ih =>
    intro fs hbad hg
    have hu : isSuccess (classifyAttempt net od bid sa st u) = false :=
      hbad u (List.mem_cons_self _ _)
    rw [List.cons_append, downloadLoop_cons_fail net od bid sa st u _ fs hu]
    have := ih (attemptFS (classifyAttempt net od bid sa st u) fs)
      (fun x hx => hbad x (List.mem_cons_of_mem _ hx)) hg
    simp [this.1, this.2]

/-- Claim C1: with a non-empty candidate list, `download_book` fetches the
candidate URLs strictly in declared order and stops at the first one that
passes all of the status, size and format-signature checks: if every URL in
the prefix `us` fails and `g` passes, exactly the URLs `us ++ [g]` are
fetched, in order, and the call returns a path (the DOWNLOADED state) — the
later candidates `rest` are never fetched, so for `[bad, bad, good]` there
are exactly 3 fetches and never a 4th. -/
theorem download_book_stops_at_first_good (net : List Nat → Fetch)
    (od : List Nat) (book : Book) (fs : FS) (us : List (List Nat))
    (g : List Nat) (rest : List (List Nat))
    (hurls : book.download_urls = us ++ g :: rest)
    (hbad : ∀ u ∈ us, attemptOk net od book u = false)
    (hok : attemptOk net od book g = true) :
    (download_book net od book fs).fetched = us ++ [g] ∧
    (download_book net od book fs).result.isSome = true := by
  have hne : book.download_urls.isEmpty = false := by
    rw [hurls]; cases us <;> simp
  rw [download_book, if_neg (by simp [hne]), hurls]
  refine downloadLoop_first_ok net od book.id (computeSafeAuthor book.author)
    (computeSafeTitle book.title book.id) g rest us fs ?_ ?_
  · intro u hu
    have := hbad u hu
    rwa [attemptOk_eq_isSuccess] at this
  · rwa [attemptOk_eq_isSuccess] at hok

/-- Claim C2: with an empty candidate list, `download_book` performs zero
fetches and zero file-system changes, returns no path, and logs the
"no URLs" warning rather than the "all URLs failed" one (the two terminal
failure modes are distinguishable). -/
theorem download_book_skip_no_candidates (net : List Nat → Fetch)
    (od : List Nat) (book : Book) (fs : FS)
    (h : book.download_urls = []) :
    download_book net od book fs =
      { result := none, stored := none, fs := fs, fetched := [],
        warnedNoUrls := true, warnedAllFailed := false } := by
  simp [download_book, h]

theorem rmdirIfEmpty_files (fs : FS) : (rmdirIfEmpty fs).files = fs.files := by
  rw [rmdirIfEmpty]; split <;> rfl

theorem startsWithL_iff (p : List Nat) :
    ∀ s, startsWithL p s = true ↔ p <+: s := by
  induction p with
  | nil => intro s; simp [startsWithL]
  | cons c cs ih =>
    intro s
    cases s with
    | nil => simp [startsWithL]
    | cons d ds =>
      simp [startsWithL, List.cons_prefix_cons, ih ds, and_comm]

theorem prefix_take_of_le (p s : List Nat) (n : Nat) (h : p <+: s)
    (hn : p.length ≤ n) : p <+: s.take n := by
  obtain ⟨t, rfl⟩ := h
  rw [List.take_append_eq_append_take, List.take_of_length_le hn]
  exact ⟨_, rfl⟩

/-- A body that begins with the HTML doctype never validates, whatever the
expected extension. -/
theorem validate_false_of_doctype (body ext : List Nat)
    (h : sDoctype <+: body) : _validate_file_format body ext = false := by
  have hlen : sDoctype.length ≤ 1024 := by decide
  have h1 : startsWithL sDoctype (body.take 1024) = true :=
    (startsWithL_iff sDoctype _).mpr (prefix_take_of_le sDoctype body 1024 h hlen)
  simp [_validate_file_format, h1]

theorem eraseWrite_files (files : List (List Nat × List Nat)) (f b : List Nat) :
    List.filter (fun e => e.1 ≠ f) ((f, b) :: files.filter (fun e => e.1 ≠ f))
      = files.filter (fun e => e.1 ≠ f) := by
  rw [List.filter_cons_of_neg (by simp), List.filter_filter]
  apply List.filter_congr
  intro x _
  simp

theorem find?_filter_ne (files : List (List Nat × List Nat)) (f : List Nat) :
    List.find? (fun e => e.1 = f) (files.filter (fun e => e.1 ≠ f)) = none := by
  apply List.find?_eq_none.mpr
  intro x hx
  have hne := (List.mem_filter.mp hx).2
  simp only [ne_eq, decide_eq_true_eq] at hne ⊢
  exact hne

theorem attemptFS_tooSmall_files (fs : FS) (f b : List Nat) :
    (attemptFS (.tooSmall f b) fs).files = fs.files.filter (fun e => e.1 ≠ f) := by
  simp only [attemptFS, rmdirIfEmpty_files, unlinkF, writeF, mkdirA]
  exact eraseWrite_files fs.files f b

theorem attemptFS_badFormat_files (fs : FS) (f b : List Nat) :
    (attemptFS (.badFormat f b) fs).files = fs.files.filter (fun e => e.1 ≠ f) := by
  simp only [attemptFS, rmdirIfEmpty_files, unlinkF, writeF, mkdirA]
  exact eraseWrite_files fs.files f b

theorem attemptFS_files_subset (res : AttemptResult) (fs : FS)
    (hs : isSuccess res = false)
    (hw : ∀ f b, res ≠ .writeAborted f b) :
    ∀ e ∈ (attemptFS res fs).files, e ∈ fs.files := by
  intro e he
  cases res with
  | fetchError => exact he
  | badStatus c => exact he
  | htmlPage => exact he
  | tooSmall f b =>
    rw [attemptFS_tooSmall_files] at he
    exact List.mem_of_mem_filter he
  | badFormat f b =>
    rw [attemptFS_badFormat_files] at he
    exact List.mem_of_mem_filter he
  | writeAborted f pb => exact absurd rfl (hw f pb)
  | success f b => simp [isSuccess] at hs

/-- A fetch whose body streams to completion never takes the mid-write
exception path. -/
theorem classify_full_not_aborted (net : List Nat → Fetch)
    (od bid sa st u : List Nat) (r : Response)
    (hnet : net u = .full r) :
    ∀ f b, classifyAttempt net od bid sa st u ≠ .writeAborted f b := by
  intro f b
  simp only [classifyAttempt, hnet]
  split_ifs <;> simp

/-- Claim C4: an attempt whose stored body is smaller than 1000 bytes is
classified as too small, the stored file is deleted (it is absent from the
file system afterwards and nothing new remains), the attempt is never a
success, and the loop proceeds to the next candidate URL. -/
theorem download_book_deletes_small_files (net : List Nat → Fetch)
    (od bid sa st u : List Nat) (rest : List (List Nat)) (fs : FS)
    (r : Response)
    (hnet : net u = .full r)
    (hst : r.status = 200)
    (hgate : (containsSub sTextHtml r.contentType &&
      !containsSub sEpub (pyLower u)) = false)
    (hsize : r.body.length < 1000) :
    classifyAttempt net od bid sa st u =
      .tooSmall (mkFilename od sa st (extOf u r.contentType) bid) r.body ∧
    lookupF (attemptFS (classifyAttempt net od bid sa st u) fs).files
      (mkFilename od sa st (extOf u r.contentType) bid) = none ∧
    (∀ e ∈ (attemptFS (classifyAttempt net od bid sa st u) fs).files,
      e ∈ fs.files) ∧
    downloadLoop net od bid sa st (u :: rest) fs =
      { downloadLoop net od bid sa st rest
          (attemptFS (classifyAttempt net od bid sa st u) fs) with
        fetched := u :: (downloadLoop net od bid sa st rest
          (attemptFS (classifyAttempt net od bid sa st u) fs)).fetched } := by
  have hc : classifyAttempt net od bid sa st u =
      .tooSmall (mkFilename od sa st (extOf u r.contentType) bid) r.body := by
    simp [classifyAttempt, hnet, hst, hgate, hsize]
  have hns : isSuccess (classifyAttempt net od bid sa st u) = false := by
    rw [hc]; rfl
  refine ⟨hc, ?_,
    attemptFS_files_subset _ fs hns
      (classify_full_not_aborted net od bid sa st u r hnet),
    downloadLoop_cons_fail net od bid sa st u rest fs hns⟩
  rw [hc, lookupF, attemptFS_tooSmall_files, find?_filter_ne]
  rfl

/-- Claim C5: a fetched response whose body begins with the HTML doctype is
never accepted — whatever the declared content-type, and in particular when
the expected format is epub or pdf the attempt is rejected, any written
file is deleted (nothing new remains in the file system), and the loop
advances to the next candidate. -/
theorem download_book_rejects_doctype (net : List Nat → Fetch)
    (od bid sa st u : List Nat) (rest : List (List Nat)) (fs : FS)
    (r : Response)
    (hnet : net u = .full r)
    (hdoc : sDoctype <+: r.body)
    (hext : extOf u r.contentType = sEpub ∨ extOf u r.contentType = sPdf) :
    (∀ f b, classifyAttempt net od bid sa st u ≠ .success f b) ∧
    (∀ e ∈ (attemptFS (classifyAttempt net od bid sa st u) fs).files,
      e ∈ fs.files) ∧
    downloadLoop net od bid sa st (u :: rest) fs =
      { downloadLoop net od bid sa st rest
          (attemptFS (classifyAttempt net od bid sa st u) fs) with
        fetched := u :: (downloadLoop net od bid sa st rest
          (attemptFS (classifyAttempt net od bid sa st u) fs)).fetched } := by
  have hns : isSuccess (classifyAttempt net od bid sa st u) = false := by
    simp only [classifyAttempt, hnet]
    split_ifs with h1 h2 h3 h4
    · rfl
    · rfl
    · rfl
    · rfl
    · exfalso
      rw [validate_false_of_doctype r.body _ hdoc] at h4
      exact h4 rfl
  refine ⟨?_,
    attemptFS_files_subset _ fs hns
      (classify_full_not_aborted net od bid sa st u r hnet),
    downloadLoop_cons_fail net od bid sa st u rest fs hns⟩
  intro f b hcon
  rw [hcon] at hns
  simp [isSuccess] at hns

theorem lookupF_write (files : List (List Nat × List Nat)) (f b : List Nat) :
    lookupF ((f, b) :: files) f = some b := by
  simp [lookupF, List.find?_cons]

theorem downloadLoop_success_stored (net : List Nat → Fetch)
    (od bid sa st : List Nat) :
    ∀ (urls : List (List Nat)) (fs : FS) (p : List Nat),
      (downloadLoop net od bid sa st urls fs).result = some p →
      ∃ f b, (downloadLoop net od bid sa st urls fs).stored = some (f, b) ∧
        p = pathOf od sa f ∧
        lookupF (downloadLoop net od bid sa st urls fs).fs.files f = some b := by
  intro urls
  induction urls with
  | nil =>
    intro fs p hp
    simp [downloadLoop] at hp
  | cons u rest ih =>
    intro fs p hp
    by_cases hs : isSuccess (classifyAttempt net od bid sa st u) = true
    · obtain ⟨f, b, hc⟩ := (isSuccess_iff _).mp hs
      rw [downloadLoop_cons_success net od bid sa st u rest fs f b hc] at hp ⊢
      simp only [Option.some.injEq] at hp
      refine ⟨f, b, rfl, hp.symm, ?_⟩
      simp only [writeF, mkdirA]
      exact lookupF_write _ f b
    · have hs' : isSuccess (classifyAttempt net od bid sa st u) = false :=
        Bool.eq_false_iff.mpr hs
      rw [downloadLoop_cons_fail net od bid sa st u rest fs hs'] at hp ⊢
      simp only at hp ⊢
      exact ih _ p hp

/-- Claim C8: on every successful download the outcome carries a non-null
content hash that is the digest of the stored file's bytes as found in the
final file-system state; on every failed or skipped outcome no hash is
present and a failure reason is. -/
theorem download_outcome_content_hash (net : List Nat → Fetch)
    (od : List Nat) (book : Book) (fs : FS) :
    (∀ p, (download_book net od book fs).result = some p →
       ∃ f b, (download_book net od book fs).stored = some (f, b) ∧
         lookupF (download_book net od book fs).fs.files f = some b ∧
         (downloadOutcome net od book fs).contentHash = some (digest b)) ∧
    ((download_book net od book fs).result = none →
       (downloadOutcome net od book fs).contentHash = none ∧
       (downloadOutcome net od book fs).failureReason.isSome = true) := by
  constructor
  · intro p hp
    have hsome : ∃ f b, (download_book net od book fs).stored = some (f, b) ∧
        p = pathOf od (computeSafeAuthor book.author) f ∧
        lookupF (download_book net od book fs).fs.files f = some b := by
      by_cases he : book.download_urls.isEmpty
      · rw [download_book, if_pos he] at hp
        simp at hp
      · rw [download_book, if_neg he] at hp ⊢
        exact downloadLoop_success_stored net od book.id _ _ book.download_urls fs p hp
    obtain ⟨f, b, hst, _, hlk⟩ := hsome
    refine ⟨f, b, hst, hlk, ?_⟩
    simp only [downloadOutcome, hp, hst]
    simp [hlk]
  · intro hnone
    cases hst : (download_book net od book fs).stored <;>
      simp [downloadOutcome, hnone, hst]

/-!
## The parallel driver (`BookDownloader.download_books_parallel`) and the
database predicate (`BookDatabase.book_exists`).
-/

/-- One worker's task as seen by the result-collection loop of
`download_books_parallel`: `future.result()` either returns the
`download_book` value or raises (the `Except.error` case), and the loop
catches the exception and appends `(book, None)`. -/
def runCaught (run : Book → Except (List Nat) (Option (List Nat)))
    (b : Book) : Book × Option (List Nat) :=
  match run b with
  | Except.ok p => (b, p)
  | Except.error _ => (b, none)

/-- `BookDownloader.download_books_parallel`: one submitted task per input
book; `as_completed` yields the finished futures in a nondeterministic
completion order, modelled by the index list `order` (a permutation of the
task indices); each completed future contributes one `(book, path-or-None)`
pair. -/
def download_books_parallel (run : Book → Except (List Nat) (Option (List Nat)))
    (books : List Book) (order : List Nat) : List (Book × Option (List Nat)) :=
  order.filterMap (fun i => books[i]?.map (runCaught run))

theorem filterMap_range_getElem {α : Type} (books : List Book)
    (g : Book → α) :
    (List.range books.length).filterMap (fun i => books[i]?.map g)
      = books.map g := by
  induction books with
  | nil => simp
  | cons b bs ih =>
    rw [List.length_cons, List.range_succ_eq_map, List.filterMap_cons]
    simp only [List.getElem?_cons_zero, Option.map_some']
    rw [List.filterMap_map]
    have hfun : ((fun i => (b :: bs)[i]?.map g) ∘ (· + 1))
        = (fun i => bs[i]?.map g) := by
      funext i
      simp
    rw [hfun, ih, List.map_cons]

/-- Claim C9: for every book list and every behavior of the per-book
download (including raised exceptions) and every completion order of the
pool, `download_books_parallel` returns exactly one result per input book —
the result pairs are a permutation of the books, each paired with its own
caught outcome — and a per-book failure never escapes as an exception or
aborts the rest of the batch. -/
theorem download_books_parallel_one_per_book
    (run : Book → Except (List Nat) (Option (List Nat)))
    (books : List Book) (order : List Nat)
    (h : order.Perm (List.range books.length)) :
    (download_books_parallel run books order).length = books.length ∧
    ((download_books_parallel run books order).map Prod.fst).Perm books ∧
    (∀ pr ∈ download_books_parallel run books order,
      pr = runCaught run pr.1) := by
  have hperm : (download_books_parallel run books order).Perm
      (books.map (runCaught run)) := by
    have h2 := h.filterMap (fun i => books[i]?.map (runCaught run))
    rwa [filterMap_range_getElem] at h2
  have hfst : ∀ b, (runCaught run b).1 = b := by
    intro b
    cases hr : run b <;> simp [runCaught, hr]
  refine ⟨?_, ?_, ?_⟩
  · rw [hperm.length_eq, List.length_map]
  · have hm := hperm.map Prod.fst
    rw [List.map_map] at hm
    have heq : books.map (Prod.fst ∘ runCaught run) = books := by
      have : books.map (Prod.fst ∘ runCaught run) = books.map id :=
        List.map_congr_left (fun b _ => hfst b)
      rw [this, List.map_id]
    rwa [heq] at hm
  · intro pr hpr
    have hmem : pr ∈ books.map (runCaught run) := hperm.mem_iff.mp hpr
    obtain ⟨b, _, rfl⟩ := List.mem_map.mp hmem
    rw [hfst b]

/-- The columns of the `books` table the persistence claims are about:
the primary key `id` and the nullable `file_path`. -/
abbrev BookDB : Type := List (List Nat × Option (List Nat))

/-- `BookDatabase.add_book`: `INSERT OR REPLACE INTO books ...` keyed by the
primary key `id`; `file_path` is `None` after a failed download. -/
def add_book (db : BookDB) (bid : List Nat) (fp : Option (List Nat)) : BookDB :=
  (bid, fp) :: List.filter (fun r => r.1 ≠ bid) db

/-- `BookDatabase.book_exists`: `SELECT id FROM books WHERE id = ? AND
file_path IS NOT NULL` followed by `fetchone() is not None`. -/
def book_exists (db : BookDB) (bid : List Nat) : Bool :=
  List.any db (fun r => decide (r.1 = bid) && r.2.isSome)

/-- The aggregation filter of `EnhancedBookScraperCLI.scrape_author`:
`[book for book in books if not self.db.book_exists(book.id)]`. -/
def filterNewBooks (db : BookDB) (books : List Book) : List Book :=
  books.filter (fun b => !book_exists db b.id)

theorem book_exists_add_none (db : BookDB) (bid : List Nat) :
    book_exists (add_book db bid none) bid = false := by
  simp only [book_exists, add_book, List.any_cons, Option.isSome_none,
    Bool.and_false, Bool.false_or]
  rw [List.any_eq_false]
  intro r hr
  have hne := (List.mem_filter.mp hr).2
  simp only [ne_eq, decide_eq_true_eq] at hne
  simp [hne]

theorem book_exists_add_some (db : BookDB) (bid p : List Nat) :
    book_exists (add_book db bid (some p)) bid = true := by
  simp [book_exists, add_book, List.any_cons]

/-- Claim C10: `book_exists` is true exactly when the table holds a row
with that id and a non-null `file_path`; hence a record persisted after a
failed download (`add_book` with `file_path = None`) is kept by the
aggregation filter and re-attempted, while a record persisted with a path
is skipped. -/
theorem book_exists_iff_nonnull_path (db : BookDB) (bid : List Nat) :
    (book_exists db bid = true ↔ ∃ fp, (bid, some fp) ∈ db) ∧
    book_exists (add_book db bid none) bid = false ∧
    (∀ p, book_exists (add_book db bid (some p)) bid = true) ∧
    (∀ (books : List Book) (b : Book), b ∈ books →
       b ∈ filterNewBooks (add_book db b.id none) books ∧
       ∀ p, b ∉ filterNewBooks (add_book db b.id (some p)) books) := by
  refine ⟨?_, book_exists_add_none db bid, fun p => book_exists_add_some db bid p, ?_⟩
  · rw [book_exists, List.any_eq_true]
    constructor
    · rintro ⟨r, hr, hp⟩
      simp only [Bool.and_eq_true, decide_eq_true_eq,
        Option.isSome_iff_exists] at hp
      obtain ⟨h1, fp, h2⟩ := hp
      refine ⟨fp, ?_⟩
      have : (bid, some fp) = r := by
        rw [← h1, ← h2]
      rw [this]
      exact hr
    · rintro ⟨fp, hm⟩
      exact ⟨(bid, some fp), hm, by simp⟩
  · intro books b hb
    constructor
    · rw [filterNewBooks, List.mem_filter]
      exact ⟨hb, by rw [book_exists_add_none db b.id]; rfl⟩
    · intro p hmem
      have := (List.mem_filter.mp hmem).2
      rw [book_exists_add_some db b.id p] at this
      simp at this

/-!
## Concrete witness scenario

A book with four candidate URLs: the first returns 404, the second a small
HTML error page, the third a valid EPUB of 1004 bytes, and a fourth that is
never fetched.  A second scenario drops the connection mid-body.
-/

def odB : List Nat := str2l "books"
def urlBad1 : List Nat := str2l "http://a/1.epub"
def urlBad2 : List Nat := str2l "http://a/2.epub"
def urlGood : List Nat := str2l "http://a/3.epub"
def urlExtra : List Nat := str2l "http://a/4.epub"
def urlDrop : List Nat := str2l "http://a/5.epub"
def epubBody : List Nat := sPK ++ List.replicate 1000 0
def htmlBody : List Nat := str2l "<!DOCTYPE html><html><body>borrow</body></html>"
def rSmall : Response :=
  { status := 200, contentType := str2l "application/epub+zip", body := htmlBody }

def net1 : List Nat → Fetch := fun u =>
  if u = urlBad1 then
    .full ⟨404, str2l "text/html", str2l "not found"⟩
  else if u = urlBad2 then .full rSmall
  else if u = urlGood then
    .full ⟨200, str2l "application/epub+zip", epubBody⟩
  else .raised

def book1 : Book :=
  { id := str2l "gutenberg_12345", title := str2l "The Raven",
    author := str2l "Edgar Allan Poe",
    download_urls := [urlBad1, urlBad2, urlGood] }

def book2 : Book :=
  { id := str2l "ol_1", title := str2l "T", author := str2l "A",
    download_urls := [] }

def book3 : Book :=
  { id := str2l "gutenberg_12345", title := str2l "The Raven",
    author := str2l "Edgar Allan Poe",
    download_urls := [urlBad1, urlBad2] }

def book4 : Book :=
  { id := str2l "gutenberg_12345", title := str2l "The Raven",
    author := str2l "Edgar Allan Poe",
    download_urls := [urlBad1, urlBad2, urlGood, urlExtra] }

def fs0 : FS := { dirExists := false, files := [] }

def saEAP : List Nat := computeSafeAuthor book1.author
def stRaven : List Nat := computeSafeTitle book1.title book1.id
def pGood : List Nat :=
  str2l "books/Edgar_Allan_Poe/Edgar_Allan_Poe - The Raven.epub"

/-- The bytes already written when the connection drops mid-body. -/
def pbPartial : List Nat := sPK ++ List.replicate 200 0

/-- A single candidate whose response headers are fine (200, epub
content-type) but whose body streaming raises after `pbPartial` was
written. -/
def net3 : List Nat → Fetch := fun u =>
  if u = urlDrop then
    .bodyRaises ⟨200, str2l "application/epub+zip", epubBody⟩ pbPartial
  else .raised

def book5 : Book :=
  { id := str2l "gutenberg_12345", title := str2l "The Raven",
    author := str2l "Edgar Allan Poe",
    download_urls := [urlDrop] }

set_option maxRecDepth 100000 in
theorem download_book_stops_at_first_good_witness :
    (download_book net1 odB book4 fs0).fetched = [urlBad1, urlBad2] ++ [urlGood] ∧
    (download_book net1 odB book4 fs0).result.isSome = true :=
  download_book_stops_at_first_good net1 odB book4 fs0 [urlBad1, urlBad2]
    urlGood [urlExtra] rfl (by decide) (by decide)

theorem download_book_skip_no_candidates_witness :
    download_book net1 odB book2 fs0 =
      { result := none, stored := none, fs := fs0, fetched := [],
        warnedNoUrls := true, warnedAllFailed := false } :=
  download_book_skip_no_candidates net1 odB book2 fs0 rfl

set_option maxRecDepth 100000 in
/-- Claim C3: the code evaluated at the failing input.  All candidates fail
(the single candidate's connection drops during `iter_content` after 204
bytes were written) and `download_book` returns no path with the
"all URLs failed" warning, yet the partial file remains on disk and the
author's directory still exists afterwards: the source's per-URL `except`
branch performs no unlink, and the final cleanup only removes an empty
directory.  This contradicts the claimed (and spec-mandated) cleanup on
failure. -/
theorem download_book_partial_write_leak :
    (download_book net3 odB book5 fs0).result = none ∧
    (download_book net3 odB book5 fs0).warnedAllFailed = true ∧
    (download_book net3 odB book5 fs0).fs.dirExists = true ∧
    (download_book net3 odB book5 fs0).fs.files =
      [(mkFilename odB saEAP stRaven sEpub book5.id, pbPartial)] :=
  ⟨by decide, by decide, by decide, by decide⟩

set_option maxRecDepth 100000 in
theorem download_book_deletes_small_files_witness :
    classifyAttempt net1 odB book1.id saEAP stRaven urlBad2 =
      .tooSmall (mkFilename odB saEAP stRaven
        (extOf urlBad2 rSmall.contentType) book1.id) rSmall.body :=
  (download_book_deletes_small_files net1 odB book1.id saEAP stRaven urlBad2
    [urlGood] fs0 rSmall (by decide) rfl (by decide) (by decide)).1

set_option maxRecDepth 100000 in
theorem download_book_rejects_doctype_witness :
    classifyAttempt net1 odB book1.id saEAP stRaven urlBad2 ≠
      .success (mkFilename odB saEAP stRaven sEpub book1.id) htmlBody :=
  (download_book_rejects_doctype net1 odB book1.id saEAP stRaven urlBad2
    [urlGood] fs0 rSmall (by decide)
    ⟨str2l " html><html><body>borrow</body></html>", by decide⟩
    (Or.inl (by decide))).1 _ _

set_option maxRecDepth 100000 in
theorem download_outcome_content_hash_witness :
    (downloadOutcome net1 odB book1 fs0).contentHash.isSome = true ∧
    (downloadOutcome net1 odB book3 fs0).contentHash = none := by
  constructor
  · obtain ⟨f, b, _, _, hch⟩ :=
      (download_outcome_content_hash net1 odB book1 fs0).1 pGood (by decide)
    rw [hch]
    rfl
  · exact ((download_outcome_content_hash net1 odB book3 fs0).2 (by decide)).1

def runW : Book → Except (List Nat) (Option (List Nat)) := fun b =>
  if b.id = book1.id then Except.ok (some (str2l "p")) else
    Except.error (str2l "boom")

theorem download_books_parallel_one_per_book_witness :
    (download_books_parallel runW [book1, book2] [1, 0]).length
        = [book1, book2].length ∧
    ((download_books_parallel runW [book1, book2] [1, 0]).map Prod.fst).Perm
        [book1, book2] := by
  have h := download_books_parallel_one_per_book runW [book1, book2] [1, 0]
    (by decide)
  exact ⟨h.1, h.2.1⟩

def db0 : BookDB := [(str2l "x", some (str2l "books/x.epub"))]

theorem book_exists_iff_nonnull_path_witness :
    book_exists (add_book db0 (str2l "gutenberg_12345") none)
        (str2l "gutenberg_12345") = false ∧
    book1 ∈ filterNewBooks (add_book db0 book1.id none) [book1] := by
  have h := book_exists_iff_nonnull_path db0 (str2l "gutenberg_12345")
  exact ⟨h.2.1, ((book_exists_iff_nonnull_path db0 book1.id).2.2.2 [book1]
    book1 (by decide)).1⟩
